import Mathlib

/-!
# Verification of the manual-ingestion pipeline (`scripts/manual_worker.py`)

A shallow embedding of the manual-ingestion worker: strings are `List Char`,
Python integers are `Int`/`Nat`, Python floats appearing in the pipeline are
modelled as `ℚ` (every arithmetic step the claims touch is exact at this
granularity), and each Python function becomes a Lean function of the same
name.  Character predicates (`isalpha`, `\w`, whitespace, case mapping) are
modelled at ASCII level, which covers the pattern alphabet of the source
(plus the one non-ASCII character the patterns use, `Ω`).
-/

namespace ManualWorker

set_option maxRecDepth 40000

/-- ASCII whitespace as recognised by Python's `str.strip` / `\s`. -/
def isPySpace (c : Char) : Bool :=
  c = ' ' || c = '\t' || c = '\n' || c = '\r' || c = '\x0b' || c = '\x0c'

/-- Python `str.strip()`: remove leading and trailing whitespace. -/
def pyStrip (s : List Char) : List Char :=
  ((s.dropWhile isPySpace).reverse.dropWhile isPySpace).reverse

/-- Python `c.isalpha()`, restricted to the ASCII letters. -/
def isAlphaCh (c : Char) : Bool := c.isAlpha

/-- ASCII decimal digit. -/
def isDigitCh (c : Char) : Bool := c.isDigit

/-- ASCII uppercase letter. -/
def isUpperCh (c : Char) : Bool := 'A' ≤ c && c ≤ 'Z'

/-- Word character for `\b` (regex word boundary): ASCII alphanumerics,
underscore, and `Ω` (the only non-ASCII word character occurring in the
source patterns). -/
def isWordCh (c : Char) : Bool := c.isAlphanum || c = '_' || c = 'Ω'

/-- Python `str.lower()` on one character (ASCII). -/
def lowerCh (c : Char) : Char := c.toLower

/-- Python `str.upper()` on one character (ASCII). -/
def upperCh (c : Char) : Char := c.toUpper

/-- Python `str.lower()` on a string. -/
def pyLower (s : List Char) : List Char := s.map lowerCh

/-- Python `str.title()` (ASCII): the first letter of every maximal
alphabetic run is uppercased and the rest lowercased.  `prev` records
whether the previous character was alphabetic. -/
def pyTitleAux : Bool → List Char → List Char
  | _, [] => []
  | prev, c :: cs =>
    if isAlphaCh c then
      (if prev then lowerCh c else upperCh c) :: pyTitleAux true cs
    else
      c :: pyTitleAux false cs

/-- Python `str.title()`. -/
def pyTitle (s : List Char) : List Char := pyTitleAux false s

/-- Python `str.split('\n')`: always returns at least one (possibly empty)
piece. -/
def splitOnNl : List Char → List (List Char)
  | [] => [[]]
  | c :: cs =>
    let rest := splitOnNl cs
    if c = '\n' then [] :: rest
    else (c :: rest.headI) :: rest.tail

/-- Case-insensitive ASCII prefix test: `lit` is matched against `s`
ignoring case; returns the remainder of `s` on success. -/
def dropLitCI : List Char → List Char → Option (List Char)
  | [], s => some s
  | _ :: _, [] => none
  | l :: ls, c :: cs => if lowerCh c = lowerCh l then dropLitCI ls cs else none

/-- Case-sensitive prefix test returning the remainder on success. -/
def dropLit : List Char → List Char → Option (List Char)
  | [], s => some s
  | _ :: _, [] => none
  | l :: ls, c :: cs => if c = l then dropLit ls cs else none

/- ── Section-heading and skip patterns ─────────────────────────────────── -/

/-- Character class of `RE_ALL_CAPS_HEADING`'s tail: uppercase letters,
whitespace, hyphen, slash, ampersand. -/
def isCapsClassCh (c : Char) : Bool :=
  isUpperCh c || isPySpace c || c = '-' || c = '/' || c = '&'

/-- `RE_ALL_CAPS_HEADING` (`^`, one of `A-Z`, then four or more characters
from the class above, then `$`) applied with `match` to a
whole (already stripped, newline-free) line: an uppercase first character
followed by at least four characters from the class, consuming the line. -/
def allCapsHeadingMatch : List Char → Bool
  | [] => false
  | c :: cs => isUpperCh c && decide (4 ≤ cs.length) && cs.all isCapsClassCh

/-- After a literal keyword, `\s+\d+`: at least one whitespace character,
then at least one digit. -/
def spacesThenDigit (s : List Char) : Bool :=
  let sp := s.takeWhile isPySpace
  let rest := s.dropWhile isPySpace
  decide (0 < sp.length) &&
    (match rest with
     | [] => false
     | c :: _ => isDigitCh c)

/-- `RE_CHAPTER = ^(?:Chapter|Section|CHAPTER|SECTION)\s+\d+` applied with
`match` (anchored at the start only). -/
def chapterMatch (s : List Char) : Bool :=
  ["Chapter".data, "Section".data, "CHAPTER".data, "SECTION".data].any fun kw =>
    match dropLit kw s with
    | some rest => spacesThenDigit rest
    | none => false

/-- `RE_NUMBERED_SECTION = ^\d+[\.\-]\d*\s+[A-Z]` applied with `match`. -/
def numberedSectionMatch (s : List Char) : Bool :=
  let ds := s.takeWhile isDigitCh
  let rest := s.dropWhile isDigitCh
  decide (0 < ds.length) &&
    (match rest with
     | [] => false
     | c :: cs =>
       (c = '.' || c = '-') &&
         (let rest2 := cs.dropWhile isDigitCh
          let sp := rest2.takeWhile isPySpace
          let rest3 := rest2.dropWhile isPySpace
          decide (0 < sp.length) &&
            (match rest3 with
             | [] => false
             | d :: _ => isUpperCh d)))

/-- `SKIP_PATTERNS`: `^\s*(?:table\s+of\s+contents|index|copyright|...)`,
case-insensitive, applied with `match`.  Multi-word alternatives join their
words with `\s+`. -/
def wordsThenCI : List (List Char) → List Char → Bool
  | [], _ => true
  | [w], s => (dropLitCI w s).isSome
  | w :: w2 :: ws, s =>
    match dropLitCI w s with
    | none => false
    | some rest =>
      let sp := rest.takeWhile isPySpace
      decide (0 < sp.length) && wordsThenCI (w2 :: ws) (rest.dropWhile isPySpace)

/-- `SKIP_PATTERNS.match(title)` as a Boolean. -/
def skipPatternsMatch (title : List Char) : Bool :=
  let t := title.dropWhile isPySpace
  [[ "table".data, "of".data, "contents".data ],
   [ "index".data ],
   [ "copyright".data ],
   [ "disclaimer".data ],
   [ "foreword".data ],
   [ "preface".data ],
   [ "how".data, "to".data, "use".data ]].any fun ws => wordsThenCI ws t

/- ── Heading detection (`extract_sections`, lines 114–128) ─────────────── -/

/-- The body of the per-line heading tests, applied to an already stripped,
non-empty line: all-caps heading (emitted in title case) first, then
chapter/section keyword, then numbered section — first match wins. -/
def headingOfLine (line : List Char) : Option (List Char) :=
  if allCapsHeadingMatch line && decide (5 < line.length) then some (pyTitle line)
  else if chapterMatch line then some line
  else if numberedSectionMatch line then some line
  else none

/-- The `for line in text.split('\n')[:5]` loop: strip each line, skip empty
ones, stop at the first line that yields a heading. -/
def detectHeadingLines : List (List Char) → Option (List Char)
  | [] => none
  | l :: ls =>
    let l' := pyStrip l
    if l' = [] then detectHeadingLines ls
    else
      match headingOfLine l' with
      | some h => some h
      | none => detectHeadingLines ls

/-- Heading detection for one page: only the first five raw lines of the
page text are examined. -/
def detectHeading (text : List Char) : Option (List Char) :=
  detectHeadingLines ((splitOnNl text).take 5)

/- ── Pages and sections ────────────────────────────────────────────────── -/

/-- One extracted table: rows of optional cell strings, as returned by
`page.extract_tables()`. -/
def Table := List (List (Option (List Char)))

instance : DecidableEq Table := by unfold Table; infer_instance

/-- One page as produced by the loader: extracted text and tables. -/
structure Page where
  text : List Char
  tables : List Table
deriving DecidableEq

/-- A section accumulated by `extract_sections`. -/
structure Section where
  title : List Char
  content : List Char
  pages : List Nat
  tables : List Table
deriving DecidableEq

/-- The initial open section. -/
def initialSection : Section :=
  { title := "Introduction".data, content := [], pages := [], tables := [] }

/-- One iteration of the page loop of `extract_sections`: close the current
section on a differing heading (keeping it only if its content is not all
whitespace), then append the page's text, page number and tables to the
open section. -/
def stepPage (secs : List Section) (cur : Section) (pg : Page) (pageNum : Nat) :
    List Section × Section :=
  let heading := detectHeading pg.text
  let closed : List Section × Section :=
    match heading with
    | some h =>
      if h ≠ cur.title then
        ((if pyStrip cur.content ≠ [] then secs ++ [cur] else secs),
         { title := h, content := [], pages := [], tables := [] })
      else (secs, cur)
    | none => (secs, cur)
  let secs' := closed.1
  let cur' := closed.2
  (secs',
   { cur' with
     content := cur'.content ++ pg.text ++ ['\n'],
     pages := cur'.pages ++ [pageNum],
     tables := if pg.tables ≠ [] then cur'.tables ++ pg.tables else cur'.tables })

/-- The page loop of `extract_sections`, processing the remaining pages
with `n` the (1-based) number of the next page. -/
def extractLoop : List Page → Nat → List Section → Section → List Section × Section
  | [], _, secs, cur => (secs, cur)
  | p :: ps, n, secs, cur =>
    let st := stepPage secs cur p n
    extractLoop ps (n + 1) st.1 st.2

/-- Number of pages actually processed: `min(page_limit, total_pages)` with
`page_limit = max_pages if max_pages > 0 else total_pages`. -/
def processedCount (pages : List Page) (maxPages : Int) : Nat :=
  if 0 < maxPages then min maxPages.toNat pages.length else pages.length

/-- `extract_sections`: fold the page loop over the processed prefix and
flush the still-open section if its content is not all whitespace. -/
def extract_sections (pages : List Page) (maxPages : Int) : List Section :=
  let ps := pages.take (processedCount pages maxPages)
  let st := extractLoop ps 1 [] initialSection
  if pyStrip st.2.content ≠ [] then st.1 ++ [st.2] else st.1

/- ── Regex matching (`re.findall` on the NER patterns) ─────────────────── -/

/-- A matcher in the style of a backtracking regex engine: given the
character immediately before the current position (`none` at the start of
the text) and the remaining input, it returns the candidate numbers of
consumed characters, most preferred first — Python's leftmost/greedy
preference order. -/
def M := Option Char → List Char → List Nat

/-- Matches the empty string. -/
def epsM : M := fun _ _ => [0]

/-- Sequencing, backtracking through all candidate splits in preference
order. -/
def seqM (m1 m2 : M) : M := fun prev s =>
  (m1 prev s).flatMap fun n1 =>
    let prev' := if n1 = 0 then prev else (s.take n1).getLast?
    (m2 prev' (s.drop n1)).map fun n2 => n1 + n2

/-- Sequence a whole list of matchers. -/
def seqAll (ms : List M) : M := ms.foldr seqM epsM

/-- Alternation, leftmost alternative preferred. -/
def altM (ms : List M) : M := fun prev s => ms.flatMap fun m => m prev s

/-- Greedy `?`: try the inner matcher first, then the empty match. -/
def optM (m : M) : M := fun prev s => m prev s ++ [0]

/-- Case-sensitive literal. -/
def litM (l : List Char) : M := fun _ s =>
  if (dropLit l s).isSome then [l.length] else []

/-- Case-insensitive literal (for the `re.IGNORECASE` patterns). -/
def litMCI (l : List Char) : M := fun _ s =>
  if (dropLitCI l s).isSome then [l.length] else []

/-- Greedy repetition of a one-character class, at least `lo` times, at
most `hi` times (`none` = unbounded): candidates from the longest feasible
run downwards. -/
def ccRepRange (p : Char → Bool) (lo : Nat) (hi : Option Nat) : M := fun _ s =>
  let run := (s.takeWhile p).length
  let r := match hi with | some h => min run h | none => run
  if r < lo then [] else (List.range' lo (r - lo + 1)).reverse

/-- Exactly one character from a class. -/
def cc1 (p : Char → Bool) : M := ccRepRange p 1 (some 1)

/-- `\b` — zero-width word boundary: exactly one side of the position is a
word character. -/
def wbM : M := fun prev s =>
  let left := match prev with | some c => isWordCh c | none => false
  let right := match s with | [] => false | c :: _ => isWordCh c
  if left ≠ right then [0] else []

/-- `re.findall`: scan left to right, at each position take the engine's
preferred match, emit it and resume after it; on failure advance one
character.  (A zero-width match — which none of the source patterns can
produce — would emit an empty string and advance one character, as Python
does.)  The fuel argument, instantiated with the text length, makes the
recursion structural; every match consumes at least one character, so the
fuel never runs out. -/
def findallAux (m : M) : Nat → Option Char → List Char → List (List Char)
  | 0, _, _ => []
  | _ + 1, _, [] => []
  | fuel + 1, prev, c :: cs =>
    match (m prev (c :: cs)).head? with
    | some n =>
      if n = 0 then [] :: findallAux m fuel (some c) cs
      else
        ((c :: cs).take n) ::
          findallAux m fuel (((c :: cs).take n).getLast?) ((c :: cs).drop n)
    | none => findallAux m fuel (some c) cs

/-- `pattern.findall(text)`. -/
def findall (m : M) (text : List Char) : List (List Char) :=
  findallAux m text.length none text

/- The nine NER patterns of the source, transcribed. -/

/-- `\d+` -/
def digits1M : M := ccRepRange isDigitCh 1 none

/-- `(?:\.\d+)?` -/
def optFracM : M := optM (seqAll [litM ['.'], digits1M])

/-- `\s*` -/
def ws0M : M := ccRepRange isPySpace 0 none

/-- `RE_PART_NUMBER`: 4–5 digits, hyphen or en dash, 4–8 digits/uppercase,
between word boundaries. -/
def partNumberM : M :=
  seqAll [wbM, ccRepRange isDigitCh 4 (some 5),
          cc1 (fun c => c = '-' || c = '–'),
          ccRepRange (fun c => isDigitCh c || isUpperCh c) 4 (some 8), wbM]

/-- `RE_VOLTAGE`: number, optional fraction, optional spaces, `V`/`v`,
optional `olt(s)`. -/
def voltageM : M :=
  seqAll [wbM, digits1M, optFracM, ws0M, cc1 (fun c => c = 'V' || c = 'v'),
          optM (seqAll [litM "olt".data, optM (litM ['s'])]), wbM]

/-- `RE_AMPERAGE`: number, optional fraction, optional spaces, `A`/`a`,
optional `mp`/`mps`/`mpere(s)`. -/
def amperageM : M :=
  seqAll [wbM, digits1M, optFracM, ws0M, cc1 (fun c => c = 'A' || c = 'a'),
          optM (seqAll [litM "mp".data,
                        optM (altM [litM ['s'],
                                    seqAll [litM "ere".data, optM (litM ['s'])]])]),
          wbM]

/-- `RE_RESISTANCE`: number, optional fraction, optional spaces, one of
`Ω`, `KΩ`/`kΩ`, `ohm(s)`. -/
def resistanceM : M :=
  seqAll [wbM, digits1M, optFracM, ws0M,
          altM [litM ['Ω'],
                seqAll [cc1 (fun c => c = 'K' || c = 'k'), litM ['Ω']],
                seqAll [litM "ohm".data, optM (litM ['s'])]],
          wbM]

/-- `RE_TORQUE`: number, optional fraction, optional spaces, one of the
torque units. -/
def torqueM : M :=
  seqAll [wbM, digits1M, optFracM, ws0M,
          altM [seqAll [litM ['N'], cc1 (fun c => c = '·' || c = '.'), litM ['m']],
                seqAll [litM "ft".data,
                        optM (cc1 (fun c => c = '·' || c = '.' || c = '-')),
                        litM "lb".data, optM (litM ['f'])],
                seqAll [litM "kgf".data, cc1 (fun c => c = '·' || c = '.'),
                        litM "cm".data]],
          wbM]

/-- `RE_CONNECTOR`: one capital letter then one to four digits, between
word boundaries. -/
def connectorM : M :=
  seqAll [wbM, cc1 isUpperCh, ccRepRange isDigitCh 1 (some 4), wbM]

/-- The wire-colour palette alternation (case-insensitive), in source
order. -/
def colorAltM : M :=
  altM [litMCI "BLK".data, litMCI "WHT".data, litMCI "RED".data,
        litMCI "GRN".data, litMCI "BLU".data, litMCI "YEL".data,
        litMCI "ORG".data, litMCI "PNK".data, litMCI "BRN".data,
        litMCI "GRY".data, litMCI "VIO".data, litMCI "PUR".data,
        litMCI "TAN".data,
        seqAll [litMCI "LT".data, ws0M, litMCI "GRN".data],
        seqAll [litMCI "LT".data, ws0M, litMCI "BLU".data],
        seqAll [litMCI "DK".data, ws0M, litMCI "GRN".data],
        seqAll [litMCI "DK".data, ws0M, litMCI "BLU".data]]

/-- `RE_WIRE_COLORS`: a palette colour, optionally slash-joined with a
second one. -/
def wireColorsM : M :=
  seqAll [wbM, colorAltM, optM (seqAll [litM ['/'], colorAltM]), wbM]

/-- `RE_FLUID` (case-insensitive): DOT 3/4, ATF (+WS), CVT fluid,
viscosity grades, gear-oil grades. -/
def fluidM : M :=
  seqAll [wbM,
          altM [seqAll [litMCI "DOT".data, ws0M, cc1 (fun c => c = '3' || c = '4')],
                seqAll [litMCI "ATF".data, optM (seqAll [ws0M, litMCI "WS".data])],
                seqAll [litMCI "CVT".data, ws0M, litMCI "fluid".data],
                seqAll [cc1 (fun c => c = '0' || c = '5'), litMCI "W".data,
                        cc1 (fun c => c = '-' || c = '–'),
                        cc1 (fun c => c = '2' || c = '3'), litM ['0']],
                seqAll [litM "75".data, litMCI "W".data,
                        cc1 (fun c => c = '-' || c = '–'), litM "90".data],
                seqAll [litMCI "GL".data, cc1 (fun c => c = '-' || c = '–'),
                        cc1 (fun c => c = '4' || c = '5')]],
          wbM]

/-- `RE_COMPONENT_TYPES` (case-insensitive): the fixed vocabulary. -/
def componentTypesM : M :=
  seqAll [wbM,
          altM [litMCI "ECU".data, litMCI "PCM".data, litMCI "BCM".data,
                litMCI "TCM".data, litMCI "ABS".data, litMCI "SRS".data,
                litMCI "HVAC".data, litMCI "sensor".data, litMCI "relay".data,
                litMCI "fuse".data, litMCI "actuator".data,
                litMCI "solenoid".data, litMCI "motor".data, litMCI "pump".data,
                litMCI "valve".data, litMCI "switch".data],
          wbM]

/- ── Stage 2: `regex_ner` ──────────────────────────────────────────────── -/

/-- The typed entity bundle returned by `regex_ner`. -/
structure EntityBundle where
  part_numbers : List (List Char)
  voltages : List (List Char)
  amperages : List (List Char)
  resistances : List (List Char)
  torques : List (List Char)
  wire_colors : List (List Char)
  fluids : List (List Char)
  component_types : List (List Char)
  connectors : List (List Char)
deriving DecidableEq

/-- Python `list(set(xs))`: the distinct elements of `xs`, in an order the
language does not specify; modelled here by `List.dedup`.  No theorem
below depends on the order of the result, only on the underlying set. -/
def pySet (l : List (List Char)) : List (List Char) := l.dedup

/-- `regex_ner`: apply each pattern to the section text; every category is
deduplicated, and the connector category is capped to the first 20 raw
matches before deduplication. -/
def regex_ner (text : List Char) : EntityBundle :=
  { part_numbers := pySet (findall partNumberM text)
    voltages := pySet (findall voltageM text)
    amperages := pySet (findall amperageM text)
    resistances := pySet (findall resistanceM text)
    torques := pySet (findall torqueM text)
    wire_colors := pySet (findall wireColorsM text)
    fluids := pySet (findall fluidM text)
    component_types := pySet (findall componentTypesM text)
    connectors := pySet ((findall connectorM text).take 20) }

/- ── Skip rules (`should_skip_section`) ───────────────────────────────── -/

/-- The ratio of alphabetic characters to total characters,
`sum(c.isalpha() for c in content) / max(len(content), 1)`. -/
def alphaRat (content : List Char) : ℚ :=
  mkRat (content.countP isAlphaCh) (max content.length 1)

/-- `should_skip_section`: skip on a low-value title, on stripped content
shorter than 200 characters, or on an alphabetic ratio strictly below
3/10. -/
def should_skip_section (title content : List Char) : Bool :=
  if skipPatternsMatch title then true
  else if (pyStrip content).length < 200 then true
  else if alphaRat content < mkRat 3 10 then true
  else false

/- ── Stage 3 cost model (`claude_extract`, lines 228–234) ─────────────── -/

/-- Python `round` ties go to the even integer (banker's rounding). -/
def roundHalfEven (x : ℚ) : ℤ :=
  let f := ⌊x⌋
  let r := x - f
  if r < 1/2 then f
  else if 1/2 < r then f + 1
  else if f % 2 = 0 then f else f + 1

/-- `round(x, 6)`. -/
def round6 (x : ℚ) : ℚ := (roundHalfEven (x * 1000000) : ℚ) / 1000000

/-- The cost attached to an LLM response:
`round((input_tokens * 3.0 + output_tokens * 15.0) / 1_000_000, 6)`. -/
def claude_cost (i o : Nat) : ℚ :=
  round6 ((i * 3 + o * 15 : ℚ) / 1000000)

/- ── MD5 (for the output filename's content hash) ─────────────────────── -/

/-- Truncate to 32 bits. -/
def w32 (n : Nat) : Nat := n % 4294967296

/-- 32-bit left rotation. -/
def rotl32 (x r : Nat) : Nat := w32 (x * 2 ^ r + x / 2 ^ (32 - r))

/-- 32-bit bitwise complement (argument below `2 ^ 32`). -/
def notW (x : Nat) : Nat := 4294967295 - x

/-- The 64 MD5 sine-derived constants. -/
def md5K : List Nat :=
  [0xd76aa478, 0xe8c7b756, 0x242070db, 0xc1bdceee,
   0xf57c0faf, 0x4787c62a, 0xa8304613, 0xfd469501,
   0x698098d8, 0x8b44f7af, 0xffff5bb1, 0x895cd7be,
   0x6b901122, 0xfd987193, 0xa679438e, 0x49b40821,
   0xf61e2562, 0xc040b340, 0x265e5a51, 0xe9b6c7aa,
   0xd62f105d, 0x02441453, 0xd8a1e681, 0xe7d3fbc8,
   0x21e1cde6, 0xc33707d6, 0xf4d50d87, 0x455a14ed,
   0xa9e3e905, 0xfcefa3f8, 0x676f02d9, 0x8d2a4c8a,
   0xfffa3942, 0x8771f681, 0x6d9d6122, 0xfde5380c,
   0xa4beea44, 0x4bdecfa9, 0xf6bb4b60, 0xbebfbc70,
   0x289b7ec6, 0xeaa127fa, 0xd4ef3085, 0x04881d05,
   0xd9d4d039, 0xe6db99e5, 0x1fa27cf8, 0xc4ac5665,
   0xf4292244, 0x432aff97, 0xab9423a7, 0xfc93a039,
   0x655b59c3, 0x8f0ccc92, 0xffeff47d, 0x85845dd1,
   0x6fa87e4f, 0xfe2ce6e0, 0xa3014314, 0x4e0811a1,
   0xf7537e82, 0xbd3af235, 0x2ad7d2bb, 0xeb86d391]

/-- The 64 MD5 per-round shift amounts. -/
def md5S : List Nat :=
  [7, 12, 17, 22, 7, 12, 17, 22, 7, 12, 17, 22, 7, 12, 17, 22,
   5, 9, 14, 20, 5, 9, 14, 20, 5, 9, 14, 20, 5, 9, 14, 20,
   4, 11, 16, 23, 4, 11, 16, 23, 4, 11, 16, 23, 4, 11, 16, 23,
   6, 10, 15, 21, 6, 10, 15, 21, 6, 10, 15, 21, 6, 10, 15, 21]

/-- A 64-bit value as eight little-endian bytes. -/
def toLE64 (n : Nat) : List Nat :=
  (List.range 8).map fun i => n / 2 ^ (8 * i) % 256

/-- MD5 padding: `0x80`, zeros to 56 mod 64, then the bit length as a
little-endian 64-bit value. -/
def md5pad (msg : List Nat) : List Nat :=
  let r := (msg.length + 1) % 64
  msg ++ [0x80] ++ List.replicate ((56 + 64 - r) % 64) 0 ++
    toLE64 (msg.length * 8 % 2 ^ 64)

/-- Word `j` of a 64-byte chunk, little-endian. -/
def leWord (chunk : List Nat) (j : Nat) : Nat :=
  chunk.getD (4 * j) 0 + 256 * chunk.getD (4 * j + 1) 0 +
    65536 * chunk.getD (4 * j + 2) 0 + 16777216 * chunk.getD (4 * j + 3) 0

/-- One MD5 round operation on the running state. -/
def md5round (chunk : List Nat) (st : Nat × Nat × Nat × Nat) (i : Nat) :
    Nat × Nat × Nat × Nat :=
  let a := st.1
  let b := st.2.1
  let c := st.2.2.1
  let d := st.2.2.2
  let fg : Nat × Nat :=
    if i < 16 then ((b &&& c) ||| (notW b &&& d), i)
    else if i < 32 then ((d &&& b) ||| (notW d &&& c), (5 * i + 1) % 16)
    else if i < 48 then (b ^^^ c ^^^ d, (3 * i + 5) % 16)
    else (c ^^^ (b ||| notW d), 7 * i % 16)
  let f := w32 (fg.1 + a + md5K.getD i 0 + leWord chunk fg.2)
  (d, w32 (b + rotl32 f (md5S.getD i 0)), b, c)

/-- Process one 64-byte chunk. -/
def md5chunk (st : Nat × Nat × Nat × Nat) (chunk : List Nat) :
    Nat × Nat × Nat × Nat :=
  let r := (List.range 64).foldl (md5round chunk) st
  (w32 (st.1 + r.1), w32 (st.2.1 + r.2.1), w32 (st.2.2.1 + r.2.2.1),
   w32 (st.2.2.2 + r.2.2.2))

/-- Split a byte list into 64-byte chunks (fuel makes the recursion
structural; the fuel is instantiated with the list length, an upper bound
on the number of chunks). -/
def chunksOf64Aux : Nat → List Nat → List (List Nat)
  | 0, _ => []
  | _ + 1, [] => []
  | fuel + 1, b :: bs => ((b :: bs).take 64) :: chunksOf64Aux fuel ((b :: bs).drop 64)

/-- Split a byte list into 64-byte chunks. -/
def chunksOf64 (l : List Nat) : List (List Nat) := chunksOf64Aux l.length l

/-- A 32-bit word as four little-endian bytes. -/
def serW (w : Nat) : List Nat :=
  [w % 256, w / 256 % 256, w / 65536 % 256, w / 16777216 % 256]

/-- The 16-byte MD5 digest of a byte string. -/
def md5bytes (msg : List Nat) : List Nat :=
  let st := (chunksOf64 (md5pad msg)).foldl md5chunk
    (0x67452301, 0xefcdab89, 0x98badcfe, 0x10325476)
  serW st.1 ++ serW st.2.1 ++ serW st.2.2.1 ++ serW st.2.2.2

/-- One lowercase hexadecimal digit. -/
def hexDigit (n : Nat) : Char :=
  if n < 10 then Char.ofNat (48 + n) else Char.ofNat (87 + n)

/-- `hashlib.md5(...).hexdigest()`: 32 lowercase hex characters. -/
def md5hex (msg : List Nat) : List Char :=
  (md5bytes msg).flatMap fun b => [hexDigit (b / 16), hexDigit (b % 16)]

/-- UTF-8 encoding of one character. -/
def utf8Char (c : Char) : List Nat :=
  let n := c.toNat
  if n < 128 then [n]
  else if n < 2048 then [192 + n / 64, 128 + n % 64]
  else if n < 65536 then [224 + n / 4096, 128 + n / 64 % 64, 128 + n % 64]
  else [240 + n / 262144, 128 + n / 4096 % 64, 128 + n / 64 % 64, 128 + n % 64]

/-- Python `str.encode()` (UTF-8). -/
def utf8Encode (s : List Char) : List Nat := s.flatMap utf8Char

/-- The filename hash:
`hashlib.md5(section["content"][:500].encode()).hexdigest()[:8]`. -/
def contentHash (content : List Char) : List Char :=
  (md5hex (utf8Encode (content.take 500))).take 8

/- ── Stage 4: `build_output` and the pipeline ─────────────────────────── -/

/-- Vehicle metadata (make, model, year; year 0 when undetermined). -/
structure Vehicle where
  make : List Char
  model : List Char
  year : Int
deriving DecidableEq, Inhabited

/-- `vehicle["make"].lower().replace(" ", "-")`. -/
def slugify (s : List Char) : List Char :=
  (pyLower s).map fun c => if c = ' ' then '-' else c

/-- Decimal rendering of an integer (as Python's `str`). -/
def intStr (n : Int) : List Char := (toString n).data

/-- Decimal rendering of a natural number. -/
def natStr (n : Nat) : List Char := (toString n).data

/-- `f"{idx:03d}"`. -/
def pad3 (n : Nat) : List Char :=
  List.replicate (3 - (natStr n).length) '0' ++ natStr n

/-- The parsed JSON reply of the LLM stage, after `claude_extract` has
attached cost and token counts.  Each field mirrors one `.get` access in
`build_output`; `none` models a missing key.  Component descriptors are
modelled by the one field the pipeline reads from them (`"name"`);
relationship and procedure descriptors are carried through opaquely as
strings. -/
structure ClaudeResult where
  system : Option (List Char)
  subsystem : Option (List Char)
  doc_type : Option (List Char)
  components : Option (List (List Char))
  relationships : Option (List (List Char))
  procedures : Option (List (List Char))
  confidence : Option ℚ
  costUsd : Option ℚ
  inputTokens : Nat
  outputTokens : Nat
deriving DecidableEq

/-- The cost-attachment step of `claude_extract` (lines 228–234): the
parsed result gains `_cost_usd`, `_input_tokens`, `_output_tokens`. -/
def attach_cost (r : ClaudeResult) (inputTokens outputTokens : Nat) : ClaudeResult :=
  { r with costUsd := some (claude_cost inputTokens outputTokens),
           inputTokens := inputTokens, outputTokens := outputTokens }

/-- The `metadata` object of an output record. -/
structure Metadata where
  vehicle : List Char
  vehicle_info : Vehicle
  sectionName : List Char
  components : List Char
  doc_type : List Char
  extracted_components : List (List Char)
  extracted_relationships : List (List Char)
  extracted_procedures : List (List Char)
  confidence : ℚ
  page_range : List Char
  part_numbers : List (List Char)
  ner_results : List (List Char × List (List Char))
  claude_cost_usd : ℚ
deriving DecidableEq, Inhabited

/-- One output record (the `ScrapedPost`-shaped JSON object). -/
structure KnowledgeRecord where
  source : List Char
  source_id : List Char
  title : List Char
  content : List Char
  author : List Char
  url : List Char
  published_at : List Char
  scraped_at : List Char
  metadata : Metadata
deriving DecidableEq, Inhabited

/-- `", ".join(...)`. -/
def joinComma (l : List (List Char)) : List Char := List.intercalate ", ".data l

/-- `{k: v for k, v in ner.items() if v}` in dict insertion order. -/
def nerItems (n : EntityBundle) : List (List Char × List (List Char)) :=
  [("part_numbers".data, n.part_numbers), ("voltages".data, n.voltages),
   ("amperages".data, n.amperages), ("resistances".data, n.resistances),
   ("torques".data, n.torques), ("wire_colors".data, n.wire_colors),
   ("fluids".data, n.fluids), ("component_types".data, n.component_types),
   ("connectors".data, n.connectors)].filter fun p => p.2 ≠ []

/-- `build_output`: fuse section, entity bundle and optional LLM result
into one record.  `now` is the wall-clock string used for `scraped_at`. -/
def build_output (s : Section) (idx : Nat) (vehicle : Vehicle)
    (ner : EntityBundle) (claudeResult : Option ClaudeResult)
    (pdfPath now : List Char) : KnowledgeRecord :=
  let pages := s.pages
  let pageRange :=
    match pages with
    | [] => []
    | p :: _ => natStr p ++ "-".data ++ natStr (pages.getLastD 0)
  let sys := match claudeResult with | some r => r.system.getD [] | none => []
  let subsys := match claudeResult with | some r => r.subsystem.getD [] | none => []
  let docType := match claudeResult with
    | some r => r.doc_type.getD "overview".data
    | none => "overview".data
  let comps := match claudeResult with | some r => r.components.getD [] | none => []
  let rels := match claudeResult with | some r => r.relationships.getD [] | none => []
  let procs := match claudeResult with | some r => r.procedures.getD [] | none => []
  let conf : ℚ := match claudeResult with
    | some r => r.confidence.getD (mkRat 1 2)
    | none => mkRat 1 2
  let cost : ℚ := match claudeResult with
    | some r => r.costUsd.getD 0
    | none => 0
  let compNames := if comps ≠ [] then comps else ner.component_types
  let makeSlug := slugify vehicle.make
  let modelSlug := slugify vehicle.model
  let sourceId := "manual:".data ++ makeSlug ++ "-".data ++ modelSlug ++
    "-".data ++ intStr vehicle.year ++ ":section-".data ++ natStr idx
  { source := "manual".data
    source_id := sourceId
    title := s.title
    content := s.content.take 10000
    author := "OEM".data
    url := "file://".data ++ pdfPath ++ "#page=".data ++ natStr (pages.headD 1)
    published_at :=
      if vehicle.year ≠ 0 then intStr vehicle.year ++ "-01-01T00:00:00Z".data
      else []
    scraped_at := now
    metadata :=
      { vehicle := intStr vehicle.year ++ " ".data ++ vehicle.make ++ " ".data ++
          vehicle.model
        vehicle_info := vehicle
        sectionName := if sys ≠ [] then sys ++ "/".data ++ subsys else s.title
        components := joinComma (compNames.take 20)
        doc_type := docType
        extracted_components := comps
        extracted_relationships := rels
        extracted_procedures := procs
        confidence := conf
        page_range := pageRange
        part_numbers := ner.part_numbers
        ner_results := nerItems ner
        claude_cost_usd := cost } }

/-- The external LLM stage as a capability: given section title, section
content, vehicle and the pre-extracted bundle, it yields the parsed result
(with cost attached), or `none` when the call or the parse fails. -/
def ClaudeOracle :=
  List Char → List Char → Vehicle → EntityBundle → Option ClaudeResult

/-- The observable outcome of `process_pdf`.  `llmInvocations` counts how
often `claude_extract` is entered, `llmCalls` is the source's
`total_claude_calls` (successful extractions), `aborted` records the early
return on empty segmentation. -/
structure RunResult where
  files : List (List Char × KnowledgeRecord)
  llmInvocations : Nat
  llmCalls : Nat
  totalCost : ℚ
  sectionsProcessed : Nat
  sectionsTotal : Nat
  aborted : Bool
deriving DecidableEq

/-- The output filename of section `idx`. -/
def outFileName (vehicle : Vehicle) (idx : Nat) (content : List Char) : List Char :=
  "manual-".data ++ slugify vehicle.make ++ "-".data ++ slugify vehicle.model ++
    "-".data ++ intStr vehicle.year ++ "-s".data ++ pad3 idx ++ "-".data ++
    contentHash content ++ ".json".data

/-- The per-section loop of `process_pdf` (skip check, NER, optional LLM
stage, record build, write). -/
def sectionLoop (client : Option ClaudeOracle) (vehicle : Vehicle)
    (pdfPath now : List Char) :
    List Section → Nat → RunResult → RunResult
  | [], _, acc => acc
  | s :: rest, idx, acc =>
    if should_skip_section s.title s.content then
      sectionLoop client vehicle pdfPath now rest (idx + 1) acc
    else
      let ner := regex_ner s.content
      let claudeResult : Option ClaudeResult :=
        match client with
        | some oracle =>
          if 200 < (pyStrip s.content).length then oracle s.title s.content vehicle ner
          else none
        | none => none
      let invoked : Nat :=
        match client with
        | some _ => if 200 < (pyStrip s.content).length then 1 else 0
        | none => 0
      let callsCost : Nat × ℚ :=
        match claudeResult with
        | some r => (acc.llmCalls + 1, acc.totalCost + r.costUsd.getD 0)
        | none => (acc.llmCalls, acc.totalCost)
      let output := build_output s idx vehicle ner claudeResult pdfPath now
      sectionLoop client vehicle pdfPath now rest (idx + 1)
        { acc with
          files := acc.files ++ [(outFileName vehicle idx s.content, output)]
          llmInvocations := acc.llmInvocations + invoked
          llmCalls := callsCost.1
          totalCost := callsCost.2
          sectionsProcessed := acc.sectionsProcessed + 1 }

/-- `process_pdf`: segment, then run the per-section loop; on empty
segmentation return early, with nothing written. -/
def process_pdf (pages : List Page) (vehicle : Vehicle)
    (client : Option ClaudeOracle) (now pdfPath : List Char)
    (maxPages : Int) : RunResult :=
  if extract_sections pages maxPages = [] then
    { files := [], llmInvocations := 0, llmCalls := 0, totalCost := 0,
      sectionsProcessed := 0, sectionsTotal := 0, aborted := true }
  else
    sectionLoop client vehicle pdfPath now (extract_sections pages maxPages) 0
      { files := [], llmInvocations := 0, llmCalls := 0, totalCost := 0,
        sectionsProcessed := 0,
        sectionsTotal := (extract_sections pages maxPages).length,
        aborted := false }

/- ── Command line (`main`, lines 390–421) ─────────────────────────────── -/

/-- Python `int(s)` on a string: optional surrounding whitespace, optional
sign, decimal digits.  (Python also accepts single underscores between
digits; no input below exercises that.) -/
def pyInt (s : List Char) : Option Int :=
  let digitsVal : List Char → Int := fun ds =>
    ds.foldl (fun acc c => acc * 10 + (c.toNat - 48 : Int)) 0
  match pyStrip s with
  | [] => none
  | '-' :: ds => if ds ≠ [] ∧ ds.all isDigitCh then some (-(digitsVal ds)) else none
  | '+' :: ds => if ds ≠ [] ∧ ds.all isDigitCh then some (digitsVal ds) else none
  | ds => if ds.all isDigitCh then some (digitsVal ds) else none

/-- The four recognised optional flags. -/
def isFlag (a : List Char) : Bool :=
  a = "--make".data || a = "--model".data || a = "--year".data ||
    a = "--max-pages".data

/-- The `while i < len(args) - 1` flag loop of `main`: a recognised flag
consumes the following argument as its value (`--year`/`--max-pages`
through `int`, whose failure is an uncaught `ValueError`); an unrecognised
argument is stepped over; the loop stops with one argument left. -/
def applyFlagsAux : Nat → List (List Char) → Vehicle → Int → Except Unit (Vehicle × Int)
  | 0, _, v, m => .ok (v, m)
  | _ + 1, [], v, m => .ok (v, m)
  | _ + 1, [_], v, m => .ok (v, m)
  | fuel + 1, a :: b :: rest, v, m =>
    if a = "--make".data then applyFlagsAux fuel rest { v with make := b } m
    else if a = "--model".data then applyFlagsAux fuel rest { v with model := b } m
    else if a = "--year".data then
      match pyInt b with
      | some y => applyFlagsAux fuel rest { v with year := y } m
      | none => .error ()
    else if a = "--max-pages".data then
      match pyInt b with
      | some n => applyFlagsAux fuel rest v n
      | none => .error ()
    else applyFlagsAux fuel (b :: rest) v m

/-- The flag loop, fuelled with the argument count (each iteration removes
at least one argument, so the fuel is never exhausted). -/
def applyFlags (args : List (List Char)) (v : Vehicle) (m : Int) :
    Except Unit (Vehicle × Int) :=
  applyFlagsAux args.length args v m

/-- Whether the flag loop consumes the final argument as the *value* of a
preceding recognised flag (mirrors the recursion of `applyFlags`; an
earlier `int` failure stops the scan). -/
def consumesLastAux : Nat → List (List Char) → Bool
  | 0, _ => false
  | _ + 1, [] => false
  | _ + 1, [_] => false
  | _ + 1, [a, _] => isFlag a
  | fuel + 1, a :: b :: rest =>
    if a = "--make".data || a = "--model".data then consumesLastAux fuel rest
    else if a = "--year".data || a = "--max-pages".data then
      match pyInt b with
      | some _ => consumesLastAux fuel rest
      | none => false
    else consumesLastAux fuel (b :: rest)

/-- Whether the flag loop consumes the final argument as the *value* of a
preceding recognised flag (mirrors the recursion of `applyFlags`; an
earlier `int` failure stops the scan). -/
def consumesLast (args : List (List Char)) : Bool :=
  consumesLastAux args.length args

/-- The observable outcome of `main`: the process exit code and the files
written. -/
structure MainResult where
  exitCode : Nat
  files : List (List Char × KnowledgeRecord)
deriving DecidableEq

/-- `main`: usage check, input-existence check, flag parsing, load, then
`process_pdf`.  `loaded` is the loader's outcome (`none` models a
`pdfplumber` failure, which is an uncaught exception, exit code 1);
`v0` is the filename-derived vehicle. -/
def main_run (argv : List (List Char)) (pdfExists : Bool)
    (loaded : Option (List Page)) (v0 : Vehicle)
    (client : Option ClaudeOracle) (now : List Char) : MainResult :=
  if argv.length < 3 then { exitCode := 1, files := [] }
  else if !pdfExists then { exitCode := 1, files := [] }
  else
    match applyFlags (argv.drop 3) v0 0 with
    | .error _ => { exitCode := 1, files := [] }
    | .ok vm =>
      match loaded with
      | none => { exitCode := 1, files := [] }
      | some pages =>
        let r := process_pdf pages vm.1 client now (argv.getD 1 []) vm.2
        { exitCode := 0, files := r.files }

/- Concrete inputs used below by witnesses and counterexamples. -/

/-- A text with 21 `A1` connector matches followed by one `B2` match:
capping before deduplication keeps only `A1`. -/
def c9text : List Char := (List.replicate 21 "A1 ".data).flatten ++ "B2".data

/-- A one-page document whose page yields no text: segmentation produces
zero sections. -/
def c2pages : List Page := [{ text := [], tables := [] }]

/-- The counterexample page: five blank lines, then a chapter heading. -/
def c3text : List Char := "\n\n\n\n\nCHAPTER 1".data

/-- The concrete one-page document used by the C4 witness: 200 letters. -/
def c4pages : List Page := [{ text := List.replicate 200 'a', tables := [] }]

/-- The C4 witness run and its single output file. -/
def c4run : RunResult :=
  process_pdf c4pages { make := "Toyota".data, model := "3S GTE".data, year := 1991 }
    none "2025-01-01T00:00:00Z".data "p.pdf".data 0

/-- The first file of the witness run. -/
def c4file : List Char × KnowledgeRecord := c4run.files.headI

/-- Lowercase hexadecimal character. -/
def isHexLowerCh (c : Char) : Bool :=
  c.isDigit || (decide ('a' ≤ c) && decide (c ≤ 'f'))

/-- The concrete one-page document used by the C8 witness. -/
def c8pages : List Page := [{ text := List.replicate 200 'b', tables := [] }]

/-- Two contents agreeing on their first 500 characters. -/
def c8c : List Char := List.replicate 600 'z'

/-- A longer content with the same first 500 characters as `c8c`. -/
def c8c2 : List Char := List.replicate 700 'z'

/-- A one-page document with whitespace-only text: its only section is
dropped, so the page is lost. -/
def c1badpages : List Page := [{ text := "   ".data, tables := [] }]

/-- The concrete one-page document used by the C1 witness. -/
def c1pages : List Page := [{ text := "Hello page one".data, tables := [] }]

/- ──────────────────────────── Theorems ──────────────────────────────── -/

/-- Dedup does not change the underlying set. -/
lemma pySet_toFinset (l : List (List Char)) : (pySet l).toFinset = l.toFinset := by
  ext a
  simp [pySet, List.mem_toFinset, List.mem_dedup]

/-- Bridging lemma: `mkRat n d` is ordinary division. -/
lemma mkRat_eq_div' (n : ℤ) (d : ℕ) : (mkRat n d : ℚ) = (n : ℚ) / (d : ℚ) := by
  rw [Rat.mkRat_eq_divInt, Rat.divInt_eq_div]
  norm_num

/-- `alphaRat` is the source's `sum(c.isalpha() for c in content) /
max(len(content), 1)` as exact rational division. -/
lemma alphaRat_eq_div (content : List Char) :
    alphaRat content
      = (content.countP isAlphaCh : ℚ) / (max content.length 1 : ℚ) := by
  unfold alphaRat
  rw [mkRat_eq_div']
  push_cast
  rfl

/-- The MD5 embedding agrees with the standard test vector for `"abc"`. -/
lemma md5hex_abc :
    md5hex (utf8Encode "abc".data) = "900150983cd24fb0d6963f7d28e17f72".data := by
  decide

/-- Rounding an integer-valued rational is the identity. -/
lemma roundHalfEven_intCast (n : ℤ) : roundHalfEven (n : ℚ) = n := by
  unfold roundHalfEven
  norm_num [Int.floor_intCast]

/-- The cost before rounding already has at most six decimal places, so
rounding is the identity. -/
lemma claude_cost_eq (i o : Nat) :
    claude_cost i o = (i * 3 + o * 15 : ℚ) / 1000000 := by
  unfold claude_cost round6
  have h : ((i : ℚ) * 3 + (o : ℚ) * 15) / 1000000 * 1000000
      = (((i * 3 + o * 15 : ℕ) : ℤ) : ℚ) := by
    push_cast
    field_simp
  rw [h, roundHalfEven_intCast]
  push_cast
  ring

/-- C5.  Cost formula: for every LLM result with input token count `i` and
output token count `o`, the attached cost equals `(i * 3 + o * 15) / 10^6`
rounded to six decimal places — which is exactly `(i * 3 + o * 15) / 10^6`
— and in particular for `i = 1000`, `o = 500` it equals `0.0105`. -/
theorem c5_cost_formula (r : ClaudeResult) (i o : Nat) :
    (attach_cost r i o).costUsd = some (claude_cost i o)
    ∧ claude_cost i o = (i * 3 + o * 15 : ℚ) / 1000000
    ∧ claude_cost 1000 500 = 21 / 2000 := by
  refine ⟨rfl, claude_cost_eq i o, ?_⟩
  rw [claude_cost_eq]
  norm_num

/-- C6.  Skip monotonicity: a section whose stripped content is shorter
than 200 characters is always skipped, whatever its title or entity
content. -/
theorem c6_skip_short (title content : List Char)
    (h : (pyStrip content).length < 200) :
    should_skip_section title content = true := by
  simp [should_skip_section, h]

/-- Witness for C6 at a concrete input. -/
theorem c6_skip_short_witness :
    (pyStrip "short".data).length < 200
    ∧ should_skip_section "Engine".data "short".data = true :=
  ⟨by decide, c6_skip_short _ _ (by decide)⟩

/-- C7.  Alpha-ratio strict boundary: a section not skipped on the title
or length grounds with an alphabetic ratio of exactly 3/10 is not
skipped, while a ratio of 29/100 always skips. -/
theorem c7_alpha_boundary (title content : List Char) :
    (skipPatternsMatch title = false → ¬ (pyStrip content).length < 200 →
        alphaRat content = 3 / 10 → should_skip_section title content = false)
    ∧ (alphaRat content = 29 / 100 → should_skip_section title content = true) := by
  constructor
  · intro h1 h2 h3
    unfold should_skip_section
    rw [h1]
    simp only [Bool.false_eq_true, if_false, if_neg h2, h3]
    rw [if_neg (by rw [mkRat_eq_div']; norm_num)]
  · intro h
    unfold should_skip_section
    split
    · rfl
    · split
      · rfl
      · rw [if_pos (by rw [h, mkRat_eq_div']; norm_num)]

/-- Witness for C7: a 1000-character body with exactly 300 letters is not
skipped; a body with ratio 29/100 is skipped. -/
theorem c7_alpha_boundary_witness :
    (skipPatternsMatch "Engine".data = false
      ∧ ¬ (pyStrip (List.replicate 300 'a' ++ List.replicate 700 '1')).length < 200
      ∧ alphaRat (List.replicate 300 'a' ++ List.replicate 700 '1') = 3 / 10
      ∧ should_skip_section "Engine".data
          (List.replicate 300 'a' ++ List.replicate 700 '1') = false)
    ∧ (alphaRat (List.replicate 29 'a' ++ List.replicate 71 '1') = 29 / 100
      ∧ should_skip_section "Engine".data
          (List.replicate 29 'a' ++ List.replicate 71 '1') = true) := by
  have h3 : alphaRat (List.replicate 300 'a' ++ List.replicate 700 '1') = 3 / 10 := by
    rw [show alphaRat (List.replicate 300 'a' ++ List.replicate 700 '1')
          = mkRat 300 1000 from by decide, mkRat_eq_div']
    norm_num
  have h29 : alphaRat (List.replicate 29 'a' ++ List.replicate 71 '1') = 29 / 100 := by
    rw [show alphaRat (List.replicate 29 'a' ++ List.replicate 71 '1')
          = mkRat 29 100 from by decide, mkRat_eq_div']
    norm_num
  exact ⟨⟨by decide, by decide, h3,
    (c7_alpha_boundary _ _).1 (by decide) (by decide) h3⟩,
   ⟨h29, (c7_alpha_boundary _ _).2 h29⟩⟩

/-- C9.  Connector cap-then-dedup order: the connector category is the
set of the first 20 raw matches (cap before dedup) while every other
category is the set of all of its matches, and on `c9text` this is
observably different from dedup-before-cap. -/
theorem c9_connector_cap :
    (∀ text : List Char,
        (regex_ner text).connectors.toFinset
            = ((findall connectorM text).take 20).toFinset
      ∧ (regex_ner text).part_numbers.toFinset = (findall partNumberM text).toFinset
      ∧ (regex_ner text).voltages.toFinset = (findall voltageM text).toFinset
      ∧ (regex_ner text).amperages.toFinset = (findall amperageM text).toFinset
      ∧ (regex_ner text).resistances.toFinset = (findall resistanceM text).toFinset
      ∧ (regex_ner text).torques.toFinset = (findall torqueM text).toFinset
      ∧ (regex_ner text).wire_colors.toFinset = (findall wireColorsM text).toFinset
      ∧ (regex_ner text).fluids.toFinset = (findall fluidM text).toFinset
      ∧ (regex_ner text).component_types.toFinset
            = (findall componentTypesM text).toFinset)
    ∧ (regex_ner c9text).connectors.toFinset
        ≠ ((findall connectorM c9text).dedup.take 20).toFinset := by
  constructor
  · intro text
    exact ⟨pySet_toFinset _, pySet_toFinset _, pySet_toFinset _, pySet_toFinset _,
      pySet_toFinset _, pySet_toFinset _, pySet_toFinset _, pySet_toFinset _,
      pySet_toFinset _⟩
  · decide

/- ── C2: empty segmentation ───────────────────────────────────────────── -/

/-- C2, counterexample.  A 0-section input makes `process_pdf` return
early (no files), after which `main` finishes normally: the exit code is
0, not 1 as the claim states. -/
theorem c2_counterexample :
    extract_sections c2pages 0 = []
    ∧ main_run ["prog".data, "doc.pdf".data, "out".data] true (some c2pages)
        { make := "Make".data, model := "Model".data, year := 0 } none "t".data
      = { exitCode := 0, files := [] } :=
  ⟨rfl, rfl⟩

/-- Helper: the early return of `process_pdf` on empty segmentation. -/
lemma process_pdf_empty (pages : List Page) (vehicle : Vehicle)
    (client : Option ClaudeOracle) (now pdfPath : List Char) (maxPages : Int)
    (h : extract_sections pages maxPages = []) :
    process_pdf pages vehicle client now pdfPath maxPages
      = { files := [], llmInvocations := 0, llmCalls := 0, totalCost := 0,
          sectionsProcessed := 0, sectionsTotal := 0, aborted := true } := by
  unfold process_pdf
  rw [h]
  rfl

/-- C2, amended.  When zero sections are extracted the run aborts before
writing any output file, but the process exits with code 0 (the empty
segmentation is only logged); exit code 1 is reserved for usage errors,
a missing input path, flag-parsing failures and load failures. -/
theorem c2_empty_segmentation :
    (∀ pages vehicle client now pdfPath maxPages,
        extract_sections pages maxPages = [] →
        process_pdf pages vehicle client now pdfPath maxPages
          = { files := [], llmInvocations := 0, llmCalls := 0, totalCost := 0,
              sectionsProcessed := 0, sectionsTotal := 0, aborted := true })
    ∧ (∀ argv pdfExists pages v0 client now vm,
        3 ≤ argv.length → pdfExists = true →
        applyFlags (argv.drop 3) v0 0 = .ok vm →
        extract_sections pages vm.2 = [] →
        main_run argv pdfExists (some pages) v0 client now
          = { exitCode := 0, files := [] }) := by
  constructor
  · exact process_pdf_empty
  · intro argv pdfExists pages v0 client now vm hlen hex hflags hsec
    unfold main_run
    rw [if_neg (by omega), hex]
    simp only [Bool.not_true, Bool.false_eq_true, if_false, hflags]
    rw [process_pdf_empty _ _ _ _ _ _ hsec]

/-- Witness for C2 at a concrete invocation: three positional arguments,
the empty-text page, flag parsing succeeding trivially, zero sections. -/
theorem c2_empty_segmentation_witness :
    extract_sections c2pages ((Vehicle.mk "Make".data "Model".data 0, (0 : Int)).2) = []
    ∧ main_run ["prog".data, "doc.pdf".data, "out".data] true (some c2pages)
        (Vehicle.mk "Make".data "Model".data 0) none "t".data
      = { exitCode := 0, files := [] } :=
  ⟨rfl,
   c2_empty_segmentation.2 ["prog".data, "doc.pdf".data, "out".data] true c2pages
     (Vehicle.mk "Make".data "Model".data 0) none "t".data
     (Vehicle.mk "Make".data "Model".data 0, 0)
     (by decide) rfl rfl rfl⟩

/- ── C10: trailing flag handling ──────────────────────────────────────── -/

/-- The flag loop ignores an empty argument list at any fuel. -/
lemma applyFlagsAux_nil (fuel : Nat) (v : Vehicle) (m : Int) :
    applyFlagsAux fuel [] v m = .ok (v, m) := by
  cases fuel <;> rfl

/-- The flag loop ignores a single remaining argument at any fuel. -/
lemma applyFlagsAux_single (fuel : Nat) (a : List Char) (v : Vehicle) (m : Int) :
    applyFlagsAux fuel [a] v m = .ok (v, m) := by
  cases fuel <;> rfl

/-- The fuel of the flag loop is irrelevant once it covers the argument
count. -/
lemma applyFlagsAux_irrel :
    ∀ fuel fuel' args v m, args.length ≤ fuel → args.length ≤ fuel' →
      applyFlagsAux fuel args v m = applyFlagsAux fuel' args v m := by
  intro fuel
  induction fuel with
  | zero =>
    intro fuel' args v m h h'
    match args with
    | [] => rw [applyFlagsAux_nil, applyFlagsAux_nil]
    | _ :: _ => simp at h
  | succ fuel ih =>
    intro fuel' args v m h h'
    match args with
    | [] => rw [applyFlagsAux_nil, applyFlagsAux_nil]
    | [a] => rw [applyFlagsAux_single, applyFlagsAux_single]
    | a :: b :: rest =>
      obtain ⟨f', rfl⟩ : ∃ f', fuel' = f' + 1 :=
        ⟨fuel' - 1, by simp at h'; omega⟩
      have hr : rest.length ≤ fuel ∧ rest.length ≤ f' := by
        simp at h h'; omega
      have hbr : (b :: rest).length ≤ fuel ∧ (b :: rest).length ≤ f' := by
        simp at h h' ⊢; omega
      simp only [applyFlagsAux]
      split_ifs
      · exact ih f' rest _ _ hr.1 hr.2
      · exact ih f' rest _ _ hr.1 hr.2
      · cases pyInt b with
        | some y => exact ih f' rest _ _ hr.1 hr.2
        | none => rfl
      · cases pyInt b with
        | some n => exact ih f' rest _ _ hr.1 hr.2
        | none => rfl
      · exact ih f' (b :: rest) _ _ hbr.1 hbr.2

/-- The one-step unfolding of `applyFlags` on at least two arguments. -/
lemma applyFlags_cons2 (a b : List Char) (rest : List (List Char))
    (v : Vehicle) (m : Int) :
    applyFlags (a :: b :: rest) v m =
      (if a = "--make".data then applyFlags rest { v with make := b } m
       else if a = "--model".data then applyFlags rest { v with model := b } m
       else if a = "--year".data then
         (match pyInt b with
          | some y => applyFlags rest { v with year := y } m
          | none => .error ())
       else if a = "--max-pages".data then
         (match pyInt b with
          | some n => applyFlags rest v n
          | none => .error ())
       else applyFlags (b :: rest) v m) := by
  show applyFlagsAux (rest.length + 1 + 1) _ _ _ = _
  simp only [applyFlagsAux]
  unfold applyFlags
  split_ifs
  · exact applyFlagsAux_irrel _ _ _ _ _ (by omega) (by omega)
  · exact applyFlagsAux_irrel _ _ _ _ _ (by omega) (by omega)
  · cases pyInt b with
    | some y => exact applyFlagsAux_irrel _ _ _ _ _ (by omega) (by omega)
    | none => rfl
  · cases pyInt b with
    | some n => exact applyFlagsAux_irrel _ _ _ _ _ (by omega) (by omega)
    | none => rfl
  · exact applyFlagsAux_irrel _ _ _ _ _ (by simp) (by simp)

/-- Fuel irrelevance for the consumed-as-value scan. -/
lemma consumesLastAux_irrel :
    ∀ fuel fuel' args, args.length ≤ fuel → args.length ≤ fuel' →
      consumesLastAux fuel args = consumesLastAux fuel' args := by
  intro fuel
  induction fuel with
  | zero =>
    intro fuel' args h h'
    match args with
    | [] => cases fuel' <;> rfl
    | _ :: _ => simp at h
  | succ fuel ih =>
    intro fuel' args h h'
    match args with
    | [] => cases fuel' <;> rfl
    | [a] =>
      obtain ⟨f', rfl⟩ : ∃ f', fuel' = f' + 1 := ⟨fuel' - 1, by simp at h'; omega⟩
      rfl
    | [a, b] =>
      obtain ⟨f', rfl⟩ : ∃ f', fuel' = f' + 1 := ⟨fuel' - 1, by simp at h'; omega⟩
      rfl
    | a :: b :: c :: rest =>
      obtain ⟨f', rfl⟩ : ∃ f', fuel' = f' + 1 := ⟨fuel' - 1, by simp at h'; omega⟩
      have hr : (c :: rest).length ≤ fuel ∧ (c :: rest).length ≤ f' := by
        simp at h h' ⊢; omega
      have hbr : (b :: c :: rest).length ≤ fuel ∧ (b :: c :: rest).length ≤ f' := by
        simp at h h' ⊢; omega
      simp only [consumesLastAux]
      split_ifs
      · exact ih f' _ hr.1 hr.2
      · cases pyInt b with
        | some y => exact ih f' _ hr.1 hr.2
        | none => rfl
      · exact ih f' _ hbr.1 hbr.2

/-- The one-step unfolding of `consumesLast` on a list of length at least
three. -/
lemma consumesLast_cons3 (a b : List Char) (t : List (List Char)) (ht : t ≠ []) :
    consumesLast (a :: b :: t) =
      (if a = "--make".data || a = "--model".data then consumesLast t
       else if a = "--year".data || a = "--max-pages".data then
         (match pyInt b with
          | some _ => consumesLast t
          | none => false)
       else consumesLast (b :: t)) := by
  obtain ⟨c, t', rfl⟩ : ∃ c t', t = c :: t' := by
    cases t with
    | nil => exact absurd rfl ht
    | cons c t' => exact ⟨c, t', rfl⟩
  show consumesLastAux (t'.length + 2 + 1) _ = _
  simp only [consumesLastAux]
  unfold consumesLast
  split_ifs
  · exact consumesLastAux_irrel _ _ _ (by simp) (by simp)
  · cases pyInt b with
    | some y => exact consumesLastAux_irrel _ _ _ (by simp) (by simp)
    | none => rfl
  · exact consumesLastAux_irrel _ _ _ (by simp) (by simp)

/-- C10, counterexample.  With `--year` immediately before a trailing
`--make`, the trailing flag is consumed as the `--year` value and `int`
raises, so an error is raised: the trailing recognised flag is not
silently ignored. -/
theorem c10_counterexample :
    isFlag "--make".data = true
    ∧ ["--year".data, "--make".data].getLast? = some "--make".data
    ∧ applyFlags ["--year".data, "--make".data]
        { make := "M".data, model := "X".data, year := 0 } 0 = .error () :=
  ⟨rfl, rfl, rfl⟩

/-- C10, amended.  The flag loop never examines the final argument as a
flag: a lone trailing recognised flag is ignored with every field keeping
its value, and whenever the trailing flag is not consumed as the value of
a preceding flag, parsing behaves exactly as if the final argument were
absent.  (When it *is* consumed as a value it can set the preceding
flag's field or make `--year`/`--max-pages` raise, as the
counterexample shows.) -/
theorem c10_trailing_flag :
    (∀ f v m, isFlag f = true → applyFlags [f] v m = .ok (v, m))
    ∧ (∀ xs f v m, isFlag f = true → consumesLast (xs ++ [f]) = false →
        applyFlags (xs ++ [f]) v m = applyFlags xs v m) := by
  constructor
  · intro f v m _
    rfl
  · suffices H : ∀ n xs f v m, xs.length ≤ n → isFlag f = true →
        consumesLast (xs ++ [f]) = false →
        applyFlags (xs ++ [f]) v m = applyFlags xs v m by
      exact fun xs f v m hf hc => H xs.length xs f v m le_rfl hf hc
    intro n
    induction n with
    | zero =>
      intro xs f v m hlen _ _
      have : xs = [] := List.length_eq_zero.mp (Nat.le_zero.mp hlen)
      subst this
      rfl
    | succ n ih =>
      intro xs f v m hlen hf hc
      match xs with
      | [] => rfl
      | [a] =>
        have ha : isFlag a = false := by
          have : consumesLast [a, f] = isFlag a := rfl
          rw [List.cons_append, List.nil_append] at hc
          rw [this] at hc
          exact hc
        have hnot : ¬ a = "--make".data ∧ ¬ a = "--model".data
            ∧ ¬ a = "--year".data ∧ ¬ a = "--max-pages".data := by
          have := ha
          simp only [isFlag, Bool.or_eq_false_iff, decide_eq_false_iff_not] at this
          exact ⟨this.1.1.1, this.1.1.2, this.1.2, this.2⟩
        rw [List.cons_append, List.nil_append, applyFlags_cons2,
          if_neg hnot.1, if_neg hnot.2.1, if_neg hnot.2.2.1, if_neg hnot.2.2.2]
        rfl
      | a :: b :: rest =>
        have hlist : (a :: b :: rest) ++ [f] = a :: b :: (rest ++ [f]) := by simp
        rw [hlist, applyFlags_cons2, applyFlags_cons2]
        rw [hlist, consumesLast_cons3 _ _ _ (by simp)] at hc
        have hlen' : rest.length ≤ n := by simp at hlen; omega
        have hlenb : (b :: rest).length ≤ n := by simp at hlen ⊢; omega
        split_ifs with h1 h2 h3 h4
        · rw [if_pos (by simp [h1]) ] at hc
          exact ih rest f _ _ hlen' hf hc
        · rw [if_pos (by simp [h2]) ] at hc
          exact ih rest f _ _ hlen' hf hc
        · rw [if_neg (by simp [h1, h2]), if_pos (by simp [h3])] at hc
          cases hpy : pyInt b with
          | some y =>
            rw [hpy] at hc
            exact ih rest f _ _ hlen' hf hc
          | none => rfl
        · rw [if_neg (by simp [h1, h2]), if_pos (by simp [h4])] at hc
          cases hpy : pyInt b with
          | some y =>
            rw [hpy] at hc
            exact ih rest f _ _ hlen' hf hc
          | none => rfl
        · rw [if_neg (by simp [h1, h2]), if_neg (by simp [h3, h4])] at hc
          exact ih (b :: rest) f _ _ hlenb hf hc

/-- Witness for C10 at a concrete input: a trailing `--model` after
`--make A` is ignored. -/
theorem c10_trailing_flag_witness :
    isFlag "--model".data = true
    ∧ consumesLast ["--make".data, "A".data, "--model".data] = false
    ∧ applyFlags ["--make".data, "A".data, "--model".data]
        { make := "M".data, model := "X".data, year := 0 } 0
      = applyFlags ["--make".data, "A".data]
        { make := "M".data, model := "X".data, year := 0 } 0 :=
  ⟨by decide, by decide,
   c10_trailing_flag.2 ["--make".data, "A".data] "--model".data _ _
     (by decide) (by decide)⟩

/- ── C3: heading scan window ──────────────────────────────────────────── -/

/-- The line loop of heading detection equals a first-hit scan over the
stripped non-blank lines of its input. -/
lemma detectHeadingLines_eq (ls : List (List Char)) :
    detectHeadingLines ls
      = ((ls.map pyStrip).filter (fun l => !l.isEmpty)).findSome? headingOfLine := by
  induction ls with
  | nil => rfl
  | cons l ls ih =>
    simp only [detectHeadingLines, List.map_cons, List.filter_cons]
    by_cases h : pyStrip l = []
    · simp [h, ih]
    · rw [if_neg h]
      have hne : (!(pyStrip l).isEmpty) = true := by
        simp [List.isEmpty_iff, h]
      rw [hne]
      simp only [List.findSome?]
      cases headingOfLine (pyStrip l) with
      | some v => rfl
      | none => exact ih

/-- C3, amended.  For every page, exactly the non-blank lines among the
first five *raw* lines of its text are inspected for a heading signal:
blank lines count against the five-line window, so a signal on one of the
first five non-empty lines can be missed when blank lines precede it
(see the counterexample). -/
theorem c3_heading_window (text : List Char) :
    detectHeading text
      = ((((splitOnNl text).take 5).map pyStrip).filter
          (fun l => !l.isEmpty)).findSome? headingOfLine :=
  detectHeadingLines_eq _

/-- C3, counterexample.  `"CHAPTER 1"` is the first non-empty line of the
page (so it lies within the first five non-empty lines, preceded by blank
lines) and carries a heading signal, yet no heading is detected, because
the five-line window is counted over raw lines. -/
theorem c3_counterexample :
    detectHeading c3text = none
    ∧ ((splitOnNl c3text).map pyStrip).filter (fun l => !l.isEmpty)
        = ["CHAPTER 1".data]
    ∧ headingOfLine "CHAPTER 1".data = some "CHAPTER 1".data := by
  refine ⟨?_, ?_, ?_⟩ <;> decide

/- ── C4: regex-only fallback ──────────────────────────────────────────── -/

/-- With no LLM result, `build_output` emits the default confidence,
doc type and cost. -/
lemma build_output_none (s : Section) (idx : Nat) (vehicle : Vehicle)
    (ner : EntityBundle) (pdfPath now : List Char) :
    (build_output s idx vehicle ner none pdfPath now).metadata.confidence = mkRat 1 2
    ∧ (build_output s idx vehicle ner none pdfPath now).metadata.doc_type
        = "overview".data
    ∧ (build_output s idx vehicle ner none pdfPath now).metadata.claude_cost_usd = 0 :=
  ⟨rfl, rfl, rfl⟩

/-- The per-section loop with no client invokes no LLM, counts no calls,
accumulates no cost, and every file it appends carries the default
confidence, doc type and cost. -/
lemma sectionLoop_none (vehicle : Vehicle) (pdfPath now : List Char) :
    ∀ secs idx acc,
      (sectionLoop none vehicle pdfPath now secs idx acc).llmInvocations
          = acc.llmInvocations
      ∧ (sectionLoop none vehicle pdfPath now secs idx acc).llmCalls = acc.llmCalls
      ∧ (sectionLoop none vehicle pdfPath now secs idx acc).totalCost = acc.totalCost
      ∧ ∀ f ∈ (sectionLoop none vehicle pdfPath now secs idx acc).files,
          f ∈ acc.files
          ∨ (f.2.metadata.confidence = mkRat 1 2
             ∧ f.2.metadata.doc_type = "overview".data
             ∧ f.2.metadata.claude_cost_usd = 0) := by
  intro secs
  induction secs with
  | nil => exact fun idx acc => ⟨rfl, rfl, rfl, fun f hf => Or.inl hf⟩
  | cons s rest ih =>
    intro idx acc
    by_cases hskip : should_skip_section s.title s.content
    · simp only [sectionLoop, hskip, if_true]
      exact ih (idx + 1) acc
    · simp only [sectionLoop, hskip, Bool.false_eq_true, if_false]
      obtain ⟨h1, h2, h3, h4⟩ := ih (idx + 1)
        { acc with
          files := acc.files ++
            [(outFileName vehicle idx s.content,
              build_output s idx vehicle (regex_ner s.content) none pdfPath now)]
          llmInvocations := acc.llmInvocations + 0
          llmCalls := acc.llmCalls
          totalCost := acc.totalCost
          sectionsProcessed := acc.sectionsProcessed + 1 }
      refine ⟨by rw [h1]; rfl, by rw [h2], by rw [h3], ?_⟩
      intro f hf
      rcases h4 f hf with hin | hgood
      · simp only [List.mem_append, List.mem_singleton] at hin
        rcases hin with hin | rfl
        · exact Or.inl hin
        · exact Or.inr (build_output_none _ _ _ _ _ _)
      · exact Or.inr hgood

/-- C4.  Regex-only fallback: with no credential (no client), the LLM
stage is never entered, zero calls are counted, the accumulated cost is
zero, and every emitted record has confidence 1/2, doc type
`"overview"`, and `claude_cost_usd` 0. -/
theorem c4_regex_fallback (pages : List Page) (vehicle : Vehicle)
    (now pdfPath : List Char) (maxPages : Int) :
    (process_pdf pages vehicle none now pdfPath maxPages).llmInvocations = 0
    ∧ (process_pdf pages vehicle none now pdfPath maxPages).llmCalls = 0
    ∧ (process_pdf pages vehicle none now pdfPath maxPages).totalCost = 0
    ∧ ∀ f ∈ (process_pdf pages vehicle none now pdfPath maxPages).files,
        f.2.metadata.confidence = 1 / 2
        ∧ f.2.metadata.doc_type = "overview".data
        ∧ f.2.metadata.claude_cost_usd = 0 := by
  have hhalf : (mkRat 1 2 : ℚ) = 1 / 2 := by
    rw [mkRat_eq_div']
    norm_num
  unfold process_pdf
  split
  · exact ⟨rfl, rfl, rfl, by intro f hf; simp at hf⟩
  · obtain ⟨h1, h2, h3, h4⟩ := sectionLoop_none vehicle pdfPath now
      (extract_sections pages maxPages) 0
      { files := [], llmInvocations := 0, llmCalls := 0, totalCost := 0,
        sectionsProcessed := 0,
        sectionsTotal := (extract_sections pages maxPages).length,
        aborted := false }
    refine ⟨h1, h2, h3, ?_⟩
    intro f hf
    rcases h4 f hf with hin | ⟨hc, hd, hu⟩
    · simp at hin
    · exact ⟨hhalf ▸ hc, hd, hu⟩

/-- Witness for C4: the concrete run emits a file whose record carries the
default confidence, doc type and cost. -/
theorem c4_regex_fallback_witness :
    c4file ∈ c4run.files
    ∧ (c4file.2.metadata.confidence = 1 / 2
       ∧ c4file.2.metadata.doc_type = "overview".data
       ∧ c4file.2.metadata.claude_cost_usd = 0) :=
  ⟨by decide,
   (c4_regex_fallback c4pages
      { make := "Toyota".data, model := "3S GTE".data, year := 1991 }
      "2025-01-01T00:00:00Z".data "p.pdf".data 0).2.2.2 c4file (by decide)⟩

/- ── C8: identifier determinism ───────────────────────────────────────── -/

/-- The source id of a record does not depend on the wall-clock string. -/
lemma build_output_source_id_now (s : Section) (idx : Nat) (vehicle : Vehicle)
    (ner : EntityBundle) (cr : Option ClaudeResult) (pdfPath now₁ now₂ : List Char) :
    (build_output s idx vehicle ner cr pdfPath now₁).source_id
      = (build_output s idx vehicle ner cr pdfPath now₂).source_id := rfl

/-- The filenames and source ids produced by the per-section loop do not
depend on the wall-clock string. -/
lemma sectionLoop_now (vehicle : Vehicle) (pdfPath : List Char) :
    ∀ (secs : List Section) (idx : Nat) (now₁ now₂ : List Char)
      (acc₁ acc₂ : RunResult),
      acc₁.files.map (fun f => (f.1, f.2.source_id))
          = acc₂.files.map (fun f => (f.1, f.2.source_id)) →
      (sectionLoop none vehicle pdfPath now₁ secs idx acc₁).files.map
          (fun f => (f.1, f.2.source_id))
        = (sectionLoop none vehicle pdfPath now₂ secs idx acc₂).files.map
          (fun f => (f.1, f.2.source_id)) := by
  intro secs
  induction secs with
  | nil => exact fun idx now₁ now₂ acc₁ acc₂ h => h
  | cons s rest ih =>
    intro idx now₁ now₂ acc₁ acc₂ h
    by_cases hskip : should_skip_section s.title s.content
    · simp only [sectionLoop, hskip, if_true]
      exact ih (idx + 1) now₁ now₂ acc₁ acc₂ h
    · simp only [sectionLoop, hskip, Bool.false_eq_true, if_false]
      apply ih
      simp only [List.map_append, h, List.map_cons, List.map_nil]
      rw [build_output_source_id_now s idx vehicle (regex_ner s.content) none
        pdfPath now₁ now₂]

/-- Helper: the digest of the flatMap into hex pairs has twice the length. -/
lemma hexPairs_length (bs : List Nat) :
    (bs.flatMap fun b => [hexDigit (b / 16), hexDigit (b % 16)]).length
      = 2 * bs.length := by
  induction bs with
  | nil => rfl
  | cons b bs ih => simp [List.flatMap_cons, ih]; omega

/-- The MD5 digest always has 16 bytes. -/
lemma md5bytes_length (msg : List Nat) : (md5bytes msg).length = 16 := by
  unfold md5bytes serW
  simp

/-- Every byte of a serialised word is below 256. -/
lemma serW_lt (w : Nat) : ∀ b ∈ serW w, b < 256 := by
  intro b hb
  simp only [serW, List.mem_cons, List.not_mem_nil, or_false] at hb
  rcases hb with rfl | rfl | rfl | rfl <;> omega

/-- Every byte of the MD5 digest is below 256. -/
lemma md5bytes_lt (msg : List Nat) : ∀ b ∈ md5bytes msg, b < 256 := by
  intro b hb
  simp only [md5bytes, List.mem_append] at hb
  rcases hb with ((h | h) | h) | h <;> exact serW_lt _ _ h

/-- A hex digit of a nibble is a lowercase hexadecimal character. -/
lemma hexDigit_isHex : ∀ n, n < 16 → isHexLowerCh (hexDigit n) = true := by decide

/-- The hexdigest has 32 characters. -/
lemma md5hex_length (msg : List Nat) : (md5hex msg).length = 32 := by
  unfold md5hex
  rw [hexPairs_length, md5bytes_length]

/-- Every character of the hexdigest is lowercase hexadecimal. -/
lemma md5hex_isHex (msg : List Nat) : ∀ ch ∈ md5hex msg, isHexLowerCh ch = true := by
  intro ch hch
  unfold md5hex at hch
  rw [List.mem_flatMap] at hch
  obtain ⟨b, hb, hch⟩ := hch
  have hlt := md5bytes_lt msg b hb
  simp only [List.mem_cons, List.not_mem_nil, or_false] at hch
  rcases hch with rfl | rfl
  · exact hexDigit_isHex _ (by omega)
  · exact hexDigit_isHex _ (by omega)

/-- C8.  Identifier determinism: over the same pages and vehicle, with the
LLM stage disabled, two runs at different wall-clock times produce the
same filename and `source_id` for each corresponding section; the
filename hash depends only on the first 500 characters of the section's
content and is always 8 lowercase hexadecimal characters. -/
theorem c8_identifier_determinism :
    (∀ pages vehicle maxPages pdfPath now₁ now₂,
        (process_pdf pages vehicle none now₁ pdfPath maxPages).files.map
            (fun f => (f.1, f.2.source_id))
          = (process_pdf pages vehicle none now₂ pdfPath maxPages).files.map
            (fun f => (f.1, f.2.source_id)))
    ∧ (∀ c c' : List Char, c.take 500 = c'.take 500 →
        contentHash c = contentHash c')
    ∧ (∀ c : List Char, (contentHash c).length = 8
        ∧ ∀ ch ∈ contentHash c, isHexLowerCh ch = true) := by
  refine ⟨?_, ?_, ?_⟩
  · intro pages vehicle maxPages pdfPath now₁ now₂
    unfold process_pdf
    split
    · rfl
    · exact sectionLoop_now vehicle pdfPath _ 0 now₁ now₂ _ _ rfl
  · intro c c' h
    unfold contentHash
    rw [h]
  · intro c
    constructor
    · unfold contentHash
      rw [List.length_take, md5hex_length]
      omega
    · intro ch hch
      exact md5hex_isHex _ ch (List.mem_of_mem_take hch)

/-- Witness for C8 at concrete inputs: a run at two different times, and
the 500-character prefix property of the hash. -/
theorem c8_identifier_determinism_witness :
    ((process_pdf c8pages
        { make := "Honda".data, model := "Civic".data, year := 1999 }
        none "t1".data "p.pdf".data 0).files.map (fun f => (f.1, f.2.source_id))
      = (process_pdf c8pages
        { make := "Honda".data, model := "Civic".data, year := 1999 }
        none "t2".data "p.pdf".data 0).files.map (fun f => (f.1, f.2.source_id)))
    ∧ List.take 500 c8c = List.take 500 c8c2
    ∧ contentHash c8c = contentHash c8c2
    ∧ (contentHash c8c).length = 8 :=
  ⟨c8_identifier_determinism.1 c8pages
      { make := "Honda".data, model := "Civic".data, year := 1999 }
      0 "p.pdf".data "t1".data "t2".data,
   by decide,
   c8_identifier_determinism.2.1 c8c c8c2 (by decide),
   (c8_identifier_determinism.2.2 c8c).1⟩

/- ── C1: segmentation coverage ────────────────────────────────────────── -/

/-- The stripped string is empty exactly when every character is
whitespace. -/
lemma pyStrip_eq_nil_iff (l : List Char) :
    pyStrip l = [] ↔ ∀ x ∈ l, isPySpace x := by
  unfold pyStrip
  rw [List.reverse_eq_nil_iff, List.dropWhile_eq_nil_iff]
  constructor
  · intro h x hx
    by_cases hxl : x ∈ l.dropWhile isPySpace
    · exact h x (List.mem_reverse.mpr hxl)
    · have htd : l.takeWhile isPySpace ++ l.dropWhile isPySpace = l :=
        List.takeWhile_append_dropWhile isPySpace l
      rw [← htd] at hx
      rcases List.mem_append.mp hx with hx | hx
      · exact List.mem_takeWhile_imp hx
      · exact absurd hx hxl
  · intro h x hx
    exact h x ((List.dropWhile_sublist isPySpace).mem (List.mem_reverse.mp hx))

/-- A string containing a non-whitespace substring does not strip to
empty. -/
lemma pyStrip_append_ne (a l b : List Char) (h : pyStrip l ≠ []) :
    pyStrip (a ++ l ++ b) ≠ [] := by
  rw [Ne, pyStrip_eq_nil_iff] at h ⊢
  intro hall
  exact h fun x hx => hall x (by simp [hx])

/-- One step of the section fold: the concatenated page lists gain exactly
the new page number, except that a dropped (all-whitespace) section loses
its pages; the open section's content always receives the page text. -/
lemma stepPage_pages (secs : List Section) (cur : Section) (pg : Page) (n : Nat) :
    (List.Sublist
      ((stepPage secs cur pg n).1.flatMap Section.pages
        ++ (stepPage secs cur pg n).2.pages)
      ((secs.flatMap Section.pages ++ cur.pages) ++ [n]))
    ∧ ((cur.pages ≠ [] → pyStrip cur.content ≠ []) →
        (stepPage secs cur pg n).1.flatMap Section.pages
            ++ (stepPage secs cur pg n).2.pages
          = (secs.flatMap Section.pages ++ cur.pages) ++ [n])
    ∧ (pyStrip pg.text ≠ [] →
        ((stepPage secs cur pg n).2.pages ≠ [] →
          pyStrip (stepPage secs cur pg n).2.content ≠ [])) := by
  unfold stepPage
  rcases hd : detectHeading pg.text with _ | h
  · simp only
    refine ⟨by simp, fun _ => by simp, fun ht _ => pyStrip_append_ne _ _ _ ht⟩
  · simp only
    by_cases hne : h ≠ cur.title
    · rw [if_pos hne]
      by_cases hc : pyStrip cur.content ≠ []
      · rw [if_pos hc]
        simp only [List.flatMap_append, List.flatMap_cons, List.flatMap_nil]
        refine ⟨by simp, fun _ => by simp, fun ht _ => pyStrip_append_ne _ _ _ ht⟩
      · rw [if_neg hc]
        push_neg at hc
        refine ⟨?_, ?_, fun ht _ => pyStrip_append_ne _ _ _ ht⟩
        · simp only [List.nil_append, List.append_assoc]
          exact (List.sublist_append_right _ _).append_left _
        · intro hP
          have : cur.pages = [] := by
            by_contra hne'
            exact (hP hne') hc
          simp [this]
    · rw [if_neg hne]
      refine ⟨by simp, fun _ => by simp, fun ht _ => pyStrip_append_ne _ _ _ ht⟩

/-- Fold invariant (general case): the concatenation of all closed page
lists with the open one is a sublist of the closed-and-open lists before
plus the processed page numbers. -/
lemma extractLoop_sublist :
    ∀ (ps : List Page) (n : Nat) (secs : List Section) (cur : Section),
      List.Sublist
        ((extractLoop ps n secs cur).1.flatMap Section.pages
          ++ (extractLoop ps n secs cur).2.pages)
        ((secs.flatMap Section.pages ++ cur.pages) ++ List.range' n ps.length) := by
  intro ps
  induction ps with
  | nil => intro n secs cur; simp [extractLoop]
  | cons p ps ih =>
    intro n secs cur
    show List.Sublist ((extractLoop ps (n + 1) _ _).1.flatMap Section.pages ++ _) _
    refine ((ih (n + 1) (stepPage secs cur p n).1 (stepPage secs cur p n).2).trans ?_)
    have h2 := (stepPage_pages secs cur p n).1.append_right (List.range' (n + 1) ps.length)
    refine h2.trans ?_
    rw [List.append_assoc, List.length_cons, List.range'_succ]
    simp

/-- Fold invariant (exact case): when every remaining page has
non-whitespace text and the open section's pages certify non-whitespace
content, no page is lost. -/
lemma extractLoop_exact :
    ∀ (ps : List Page) (n : Nat) (secs : List Section) (cur : Section),
      (∀ pg ∈ ps, pyStrip pg.text ≠ []) →
      (cur.pages ≠ [] → pyStrip cur.content ≠ []) →
      ((extractLoop ps n secs cur).1.flatMap Section.pages
          ++ (extractLoop ps n secs cur).2.pages
        = (secs.flatMap Section.pages ++ cur.pages) ++ List.range' n ps.length)
      ∧ ((extractLoop ps n secs cur).2.pages ≠ [] →
          pyStrip (extractLoop ps n secs cur).2.content ≠ []) := by
  intro ps
  induction ps with
  | nil =>
    intro n secs cur _ hP
    exact ⟨by simp [extractLoop], hP⟩
  | cons p ps ih =>
    intro n secs cur hall hP
    have hpt : pyStrip p.text ≠ [] := hall p (by simp)
    have hrest : ∀ pg ∈ ps, pyStrip pg.text ≠ [] := fun pg hpg => hall pg (by simp [hpg])
    obtain ⟨hstep, hexact, hnew⟩ := stepPage_pages secs cur p n
    obtain ⟨ih1, ih2⟩ := ih (n + 1) (stepPage secs cur p n).1 (stepPage secs cur p n).2
      hrest (hnew hpt)
    refine ⟨?_, ih2⟩
    show (extractLoop ps (n + 1) (stepPage secs cur p n).1
          (stepPage secs cur p n).2).1.flatMap Section.pages
        ++ (extractLoop ps (n + 1) (stepPage secs cur p n).1
          (stepPage secs cur p n).2).2.pages = _
    rw [ih1, hexact hP, List.append_assoc, List.length_cons, List.range'_succ]
    simp

/-- `extract_sections` with its lets unfolded. -/
lemma extract_sections_eq (pages : List Page) (maxPages : Int) :
    extract_sections pages maxPages =
      if pyStrip (extractLoop (pages.take (processedCount pages maxPages)) 1 []
            initialSection).2.content ≠ [] then
        (extractLoop (pages.take (processedCount pages maxPages)) 1 []
            initialSection).1
          ++ [(extractLoop (pages.take (processedCount pages maxPages)) 1 []
            initialSection).2]
      else
        (extractLoop (pages.take (processedCount pages maxPages)) 1 []
            initialSection).1 := rfl

/-- The number of processed pages never exceeds the page count. -/
lemma processedCount_le (pages : List Page) (maxPages : Int) :
    processedCount pages maxPages ≤ pages.length := by
  unfold processedCount
  split <;> omega

/-- The concatenated page lists of the extracted sections form a sublist
of the processed page numbers `1, …, n`. -/
lemma extract_sections_sublist (pages : List Page) (maxPages : Int) :
    List.Sublist ((extract_sections pages maxPages).flatMap Section.pages)
      (List.range' 1 (processedCount pages maxPages)) := by
  have hlen : (pages.take (processedCount pages maxPages)).length
      = processedCount pages maxPages := by
    rw [List.length_take]
    have := processedCount_le pages maxPages
    omega
  have h := extractLoop_sublist (pages.take (processedCount pages maxPages)) 1 []
    initialSection
  rw [hlen] at h
  simp only [List.flatMap_nil, List.nil_append,
    show initialSection.pages = [] from rfl, List.append_nil] at h
  rw [extract_sections_eq]
  split
  · simpa [List.flatMap_append] using h
  · exact (List.sublist_append_left _ _).trans h

/-- Under the non-whitespace hypothesis — needed only for the pages the
loader actually processes — the sublist is an equality. -/
lemma extract_sections_exact (pages : List Page) (maxPages : Int)
    (hall : ∀ pg ∈ pages.take (processedCount pages maxPages),
      pyStrip pg.text ≠ []) :
    (extract_sections pages maxPages).flatMap Section.pages
      = List.range' 1 (processedCount pages maxPages) := by
  have hlen : (pages.take (processedCount pages maxPages)).length
      = processedCount pages maxPages := by
    rw [List.length_take]
    have := processedCount_le pages maxPages
    omega
  obtain ⟨h1, h2⟩ := extractLoop_exact (pages.take (processedCount pages maxPages)) 1 []
    initialSection hall (by intro h; exact absurd rfl h)
  rw [hlen] at h1
  simp only [List.flatMap_nil, List.nil_append,
    show initialSection.pages = [] from rfl, List.append_nil] at h1
  rw [extract_sections_eq]
  split
  · simpa [List.flatMap_append] using h1
  · rename_i hdrop
    push_neg at hdrop
    have hpagesnil : (extractLoop (pages.take (processedCount pages maxPages)) 1 []
        initialSection).2.pages = [] := by
      by_contra hne
      exact (h2 hne) hdrop
    rw [hpagesnil, List.append_nil] at h1
    exact h1

/-- Sections containing `p` are at most as many as occurrences of `p` in
the concatenated page lists. -/
lemma countP_le_count_flat (p : Nat) :
    ∀ secs : List Section,
      List.countP (fun s => decide (p ∈ s.pages)) secs
        ≤ (secs.flatMap Section.pages).count p := by
  intro secs
  induction secs with
  | nil => simp
  | cons s rest ih =>
    rw [List.countP_cons, List.flatMap_cons, List.count_append]
    by_cases h : p ∈ s.pages
    · have h1 : 1 ≤ s.pages.count p := List.one_le_count_iff.mpr h
      have h2 : (if decide (p ∈ s.pages) = true then 1 else 0) = 1 := by simp [h]
      rw [h2]
      omega
    · have h2 : (if decide (p ∈ s.pages) = true then 1 else 0) = 0 := by simp [h]
      rw [h2]
      omega

/-- If `p` occurs in the concatenated page lists, some section contains
it. -/
lemma countP_pos_of_mem_flat (p : Nat) (secs : List Section)
    (h : p ∈ secs.flatMap Section.pages) :
    1 ≤ List.countP (fun s => decide (p ∈ s.pages)) secs := by
  obtain ⟨s, hs, hp⟩ := List.mem_flatMap.mp h
  exact List.countP_pos_iff.mpr ⟨s, hs, by simp [hp]⟩

/-- C1, amended.  Every processed page index appears in *at most* one
extracted section's page list (no page is duplicated across sections);
and when every *processed* page's text — a page of the prefix the loader
actually reads — contains a non-whitespace character, so that no
accumulated section is dropped as blank, every processed page index
appears in *exactly* one section's page list.  (A page whose section
accumulates only whitespace is lost, see the counterexample.) -/
theorem c1_segmentation_coverage (pages : List Page) (maxPages : Int) (p : Nat) :
    List.countP (fun s => decide (p ∈ s.pages)) (extract_sections pages maxPages) ≤ 1
    ∧ ((∀ pg ∈ pages.take (processedCount pages maxPages), pyStrip pg.text ≠ []) →
        p ∈ List.range' 1 (processedCount pages maxPages) →
        List.countP (fun s => decide (p ∈ s.pages))
          (extract_sections pages maxPages) = 1) := by
  have hsub := extract_sections_sublist pages maxPages
  have hle := countP_le_count_flat p (extract_sections pages maxPages)
  have hcount : ((extract_sections pages maxPages).flatMap Section.pages).count p
      ≤ (List.range' 1 (processedCount pages maxPages)).count p :=
    hsub.count_le p
  have hrange : (List.range' 1 (processedCount pages maxPages)).count p ≤ 1 :=
    List.nodup_iff_count_le_one.mp (List.nodup_range' 1 (processedCount pages maxPages)) p
  constructor
  · omega
  · intro hall hp
    have hexact := extract_sections_exact pages maxPages hall
    have hmem : p ∈ (extract_sections pages maxPages).flatMap Section.pages := by
      rw [hexact]; exact hp
    have hpos := countP_pos_of_mem_flat p _ hmem
    have h1 : ((extract_sections pages maxPages).flatMap Section.pages).count p ≤ 1 := by
      rw [hexact]; exact hrange
    omega

/-- C1, counterexample.  Page 1 is processed but appears in zero
sections' page lists: a whitespace-only page is lost, refuting "every
processed page appears in exactly one section's page list". -/
theorem c1_counterexample :
    processedCount c1badpages 0 = 1
    ∧ List.countP (fun s => decide (1 ∈ s.pages)) (extract_sections c1badpages 0)
        = 0 := by
  refine ⟨rfl, ?_⟩
  decide

/-- Witness for C1 at a concrete input: with non-blank text, page 1
appears in exactly one section. -/
theorem c1_segmentation_coverage_witness :
    1 ∈ List.range' 1 (processedCount c1pages 0)
    ∧ List.countP (fun s => decide (1 ∈ s.pages)) (extract_sections c1pages 0) = 1 :=
  ⟨by decide,
   (c1_segmentation_coverage c1pages 0 1).2 (by decide) (by decide)⟩

end ManualWorker
